import Mathlib

/-!
Verification of the RainDesk repository (Tauri + Vue rain-overlay app).

The development shallowly embeds the parts of the repository that the
checked properties talk about:

* `src/types.ts` — the frontend helper functions `formatTime`,
  `colorToHex` and `hexToColor`, embedded over `Nat`/`List Char`
  (JavaScript numbers are restricted to the nonnegative integers these
  helpers are used with).
* the rain particle engine (`ParticleSystem`, the per-frame update loop
  of the design document `part_000` §7.2), embedded over `ℚ` in place of
  `f32`.  Random draws are passed in as explicit streams of rational
  values; the tangent of the wind angle is passed in precomputed, since
  the tangent is transcendental and the properties only relate the
  velocity components to that value.
* the configuration clamping and the preset transition engine.  Their
  Rust sources (`commands.rs`, the transition code) are not part of the
  given sources, so they are modelled from the specification; every such
  definition is marked `Modelled from the spec:` in its doc comment.
-/

/-! ## Data model -/

/-- `RainColor` from `src/types.ts`: integer channels `r`, `g`, `b` (the
claims restrict them to 0..255) and an alpha channel.  Alpha is kept as a
rational because the code only passes it through unchanged. -/
structure RainColor where
  r : Nat
  g : Nat
  b : Nat
  a : ℚ
deriving DecidableEq, Repr

/-- RGBA color of the engine configuration, one rational per channel
(embeds `color: [f32; 4]` of the Rust `RainConfig` in `part_000` §5.1). -/
structure ColorF where
  cr : ℚ
  cg : ℚ
  cb : ℚ
  ca : ℚ
deriving DecidableEq, Repr

/-- The rendering configuration (`RainConfig` of `part_000` §5.1 /
`src/types.ts`), with `f32` fields embedded as `ℚ`. -/
structure RainConfig where
  enabled : Bool
  intensity : ℚ
  speed : ℚ
  angle : ℚ
  drop_length : ℚ
  drop_width : ℚ
  color : ColorF
  opacity : ℚ
  splash_enabled : Bool
  splash_intensity : ℚ
  preset : Option String
deriving DecidableEq, Repr

/-! ## `src/types.ts` helpers -/

/-- JavaScript `String.prototype.padStart(2, "0")` on the character list of
a string. -/
def padStart2 (s : List Char) : List Char :=
  if s.length < 2 then List.replicate (2 - s.length) '0' ++ s else s

/-- JavaScript `Number.prototype.toString(base)` of a nonnegative integer:
most-significant digit first, digits above 9 as lowercase letters.  Stated
as its own structural recursion; it is proved equal to core's
`Nat.toDigits` below. -/
def jsDigits (b n : Nat) : List Char :=
  if n < b ∨ b ≤ 1 then [Nat.digitChar n]
  else jsDigits b (n / b) ++ [Nat.digitChar (n % b)]
termination_by n
decreasing_by
  rename_i h
  push_neg at h
  exact Nat.div_lt_self (by omega) (by omega)

/-- JavaScript `Number.prototype.toString()` (decimal) of a nonnegative
integer. -/
def natDecimal (n : Nat) : List Char := Nat.toDigits 10 n

/-- `formatTime` from `src/types.ts`:
`Math.floor(totalSecs / 60)` and `totalSecs % 60`, each rendered in
decimal, padded with `padStart(2, "0")`, joined by a colon. -/
def formatTime (totalSecs : Nat) : String :=
  ⟨padStart2 (natDecimal (totalSecs / 60)) ++
    ':' :: padStart2 (natDecimal (totalSecs % 60))⟩

/-- The decimal value a reader assigns to a digit string (the inverse
reading of the printed parts of `formatTime`). -/
def decValue (s : List Char) : Nat :=
  s.foldl (fun acc c => 10 * acc + (c.toNat - 48)) 0

/-- `colorToHex` from `src/types.ts`: each channel via `toString(16)`
padded with `padStart(2, "0")`, prefixed by `#`. -/
def colorToHex (c : RainColor) : String :=
  ⟨'#' :: (padStart2 (Nat.toDigits 16 c.r) ++ padStart2 (Nat.toDigits 16 c.g) ++
    padStart2 (Nat.toDigits 16 c.b))⟩

/-- Value of one character of the regex character class `[a-f\d]` (case
insensitive), as used through `parseInt(_, 16)` in `hexToColor`. -/
def hexVal (c : Char) : Option Nat :=
  if 48 ≤ c.toNat ∧ c.toNat ≤ 57 then some (c.toNat - 48)
  else if 97 ≤ c.toNat ∧ c.toNat ≤ 102 then some (c.toNat - 87)
  else if 65 ≤ c.toNat ∧ c.toNat ≤ 70 then some (c.toNat - 55)
  else none

/-- `parseInt` of one two-character regex group of `hexToColor`. -/
def parseHexPair (a b : Char) : Option Nat :=
  match hexVal a, hexVal b with
  | some x, some y => some (16 * x + y)
  | _, _ => none

/-- The characters `hexToColor`'s regex matches its three groups against:
the input with the single optional leading `#` removed. -/
def hexBody (hex : String) : List Char :=
  match hex.data with
  | '#' :: rest => rest
  | l => l

/-- Whether a character belongs to the class `[a-f\d]` (case
insensitive). -/
def isHexDigit (c : Char) : Bool := (hexVal c).isSome

/-- `hexToColor` from `src/types.ts`: if the input matches
`^#?([a-f\d]{2})([a-f\d]{2})([a-f\d]{2})$` (case insensitive), parse the
three groups base 16; otherwise return the fallback color
`{r: 174, g: 194, b: 224}`.  The alpha argument (default 255) is stored
unchanged either way. -/
def hexToColor (hex : String) (alpha : ℚ := 255) : RainColor :=
  match hexBody hex with
  | [c1, c2, c3, c4, c5, c6] =>
    match parseHexPair c1 c2, parseHexPair c3 c4, parseHexPair c5 c6 with
    | some r, some g, some b => ⟨r, g, b, alpha⟩
    | _, _, _ => ⟨174, 194, 224, alpha⟩
  | _ => ⟨174, 194, 224, alpha⟩

/-- A string of the shape `hexToColor`'s regex accepts, written from the
claim: six hex digits, optionally prefixed by `#`. -/
def validHexString (s : String) : Prop :=
  ∃ t : List Char, (s.data = t ∨ s.data = '#' :: t) ∧
    t.length = 6 ∧ ∀ c ∈ t, isHexDigit c

/-! ## Configuration clamping -/

/-- Clamping a value to `[lo, hi]`. -/
def clamp (lo hi x : ℚ) : ℚ := min hi (max lo x)

/-- Clamping to the documented `[0,1]` range. -/
def clamp01 (x : ℚ) : ℚ := clamp 0 1 x

/-- Modelled from the spec: the `set_intensity` command handler (in the
repository's `src-tauri/src/commands.rs`, absent from the given sources)
stores an externally supplied intensity clamped silently to the
documented bounds `[0,1]`, never rejecting it. -/
def set_intensity (c : RainConfig) (v : ℚ) : RainConfig :=
  { c with intensity := clamp01 v }

/-- Modelled from the spec: the `set_opacity` command handler clamps the
supplied opacity to `[0,1]` before storing it. -/
def set_opacity (c : RainConfig) (v : ℚ) : RainConfig :=
  { c with opacity := clamp01 v }

/-- Modelled from the spec: the `set_splash_intensity` command handler
clamps the supplied splash intensity to `[0,1]` before storing it. -/
def set_splash_intensity (c : RainConfig) (v : ℚ) : RainConfig :=
  { c with splash_intensity := clamp01 v }

/-- Modelled from the spec: `apply_config` (bulk application of an
externally supplied configuration, `src-tauri/src/commands.rs` absent
from the given sources) clamps every numeric field to its documented
bounds before storing the snapshot. -/
def apply_config (c : RainConfig) : RainConfig :=
  { c with
      intensity := clamp01 c.intensity
      speed := clamp (1/2) 5 c.speed
      angle := clamp (-60) 60 c.angle
      drop_length := clamp 5 100 c.drop_length
      drop_width := clamp 1 10 c.drop_width
      opacity := clamp01 c.opacity
      splash_intensity := clamp01 c.splash_intensity }

/-! ## Particle system (`part_000` §7.2) -/

/-- A 2-vector over `ℚ` (in place of `glam::Vec2`). -/
structure Vec2 where
  x : ℚ
  y : ℚ
deriving DecidableEq, Repr

/-- `Raindrop` from `part_000` §7.2. -/
structure Raindrop where
  pos : Vec2
  velocity : Vec2
  length : ℚ
  width : ℚ
  opacity : ℚ
  lifetime : ℚ
deriving DecidableEq, Repr

/-- `SplashParticle` from `part_000` §7.2. -/
structure SplashParticle where
  pos : Vec2
  velocity : Vec2
  life : ℚ
  max_life : ℚ
  size : ℚ
deriving DecidableEq, Repr

/-- `ParticleSystem` from `part_000` §7.2.  The Rust struct keeps a
pre-allocated `Vec` of capacity `max_drops` together with a count
`active_drops` of the live prefix; the embedding keeps the list of
currently active drops, so `active_drops` is its length and capacity is
the separate bound `max_drops`. -/
structure ParticleSystem where
  drops : List Raindrop
  splashes : List SplashParticle
  max_drops : Nat
  screen_width : ℚ
  screen_height : ℚ
  spawn_carry : ℚ
deriving DecidableEq, Repr

/-- The number of currently active drops. -/
def ParticleSystem.active_drops (s : ParticleSystem) : Nat := s.drops.length

/-- Modelled from the spec: `MAX_SPAWN_RATE` is the fixed constant top of
the documented 50-3000 drops/sec range reached at intensity 1. -/
def MAX_SPAWN_RATE : ℚ := 3000

/-- Step 2 of the per-frame update loop, `spawn_count = rate * dt`,
together with the spec's carry: the fractional remainder of the budget is
carried to the next frame instead of being dropped.  Returns the whole
number of drops to spawn this frame and the new carry. -/
def spawnBudget (rate carry dt : ℚ) : Nat × ℚ :=
  let budget := rate * dt + carry
  let n := ⌊budget⌋₊
  (n, budget - n)

/-- Step 3 of the per-frame update loop: one freshly spawned drop.
`tanAngle` stands for `tan(config.angle.to_radians())`, passed in
precomputed (the tangent is transcendental, and the code multiplies by
its value).  `r = (rx, ry, uSpeed, uLen)` are the frame's random draws:
the top-edge position, the `random(0.8..1.2)` speed factor and the
`random(0.7..1.3)` length factor. -/
def spawnDrop (cfg : RainConfig) (base_speed tanAngle : ℚ)
    (r : ℚ × ℚ × ℚ × ℚ) : Raindrop :=
  let vy := base_speed * cfg.speed * r.2.2.1
  { pos := ⟨r.1, r.2.1⟩
    velocity := ⟨vy * tanAngle, vy⟩
    length := cfg.drop_length * r.2.2.2
    width := cfg.drop_width
    opacity := cfg.opacity
    lifetime := 0 }

/-- The `k` drops spawned in one frame, drawing from the random stream
`rnd`. -/
def spawnDrops (cfg : RainConfig) (base_speed tanAngle : ℚ)
    (rnd : Nat → ℚ × ℚ × ℚ × ℚ) : Nat → List Raindrop
  | 0 => []
  | k + 1 => spawnDrop cfg base_speed tanAngle (rnd k) ::
      spawnDrops cfg base_speed tanAngle rnd k

/-- Step 4 per-drop motion: `pos += velocity * dt`;
`lifetime += dt * 3.0`, the fade-in fraction capped at 1. -/
def integrateDrop (dt : ℚ) (d : Raindrop) : Raindrop :=
  { d with
      pos := ⟨d.pos.x + d.velocity.x * dt, d.pos.y + d.velocity.y * dt⟩
      lifetime := min 1 (d.lifetime + dt * 3) }

/-- `pos.y > screen_height`: the drop crossed the bottom edge. -/
def hitsBottom (screen_height : ℚ) (d : Raindrop) : Bool :=
  decide (screen_height < d.pos.y)

/-- `pos.x` outside the screen: the drop exited at a side (from wind). -/
def exitsSide (screen_width : ℚ) (d : Raindrop) : Bool :=
  decide (d.pos.x < 0 ∨ screen_width < d.pos.x)

/-- Modelled from the spec: the fixed `max_life` a splash is created
with (no concrete value is fixed by the sources; the claims do not
depend on it). -/
def SPLASH_MAX_LIFE : ℚ := 1/2

/-- The splash spawned where a drop crossed the bottom edge: at the
impact x-coordinate, with a downward-biased random velocity `rv` and the
fixed `max_life`. -/
def mkSplash (screen_height impactX : ℚ) (rv : ℚ × ℚ) : SplashParticle :=
  { pos := ⟨impactX, screen_height⟩
    velocity := ⟨rv.1, rv.2⟩
    life := SPLASH_MAX_LIFE
    max_life := SPLASH_MAX_LIFE
    size := 1 }

/-- Step 4 of the per-frame update loop, one pass over the active drops
(the in-place loop of `particles.rs`): integrate each drop; a drop past
the bottom edge is dropped from the active list and — splashes enabled —
contributes one splash at its impact x (`Modelled from the spec:` the
gate on `splash_enabled`, which the design pseudocode leaves implicit);
a drop out at a side is dropped without splash; all others survive.
`rnd` supplies the splash velocity draws, one per drop position `i`. -/
def updateDrops (screen_width screen_height : ℚ) (splashOn : Bool)
    (dt : ℚ) (rnd : Nat → ℚ × ℚ) (i : Nat) :
    List Raindrop → List Raindrop × List SplashParticle
  | [] => ([], [])
  | d :: rest =>
    let d' := integrateDrop dt d
    let r := updateDrops screen_width screen_height splashOn dt rnd (i + 1) rest
    if hitsBottom screen_height d' then
      (r.1, if splashOn then mkSplash screen_height d'.pos.x (rnd i) :: r.2 else r.2)
    else if exitsSide screen_width d' then r
    else (d' :: r.1, r.2)

/-- Step 5 per-splash motion: `pos += velocity * dt`;
`velocity.y += gravity * dt`; `life -= dt`. -/
def updateSplash (gravity dt : ℚ) (s : SplashParticle) : SplashParticle :=
  { s with
      pos := ⟨s.pos.x + s.velocity.x * dt, s.pos.y + s.velocity.y * dt⟩
      velocity := ⟨s.velocity.x, s.velocity.y + gravity * dt⟩
      life := s.life - dt }

/-- Step 5 of the per-frame update loop: advance every splash and remove
those with `life <= 0`. -/
def updateSplashes (gravity dt : ℚ) (ss : List SplashParticle) :
    List SplashParticle :=
  (ss.map (updateSplash gravity dt)).filter (fun s => decide (0 < s.life))

/-- One frame of the per-frame update loop (`part_000` §7.2): compute the
spawn budget (when `enabled`; `Modelled from the spec:` spawning beyond
the pre-allocated capacity is a no-op, so the spawn count is capped by
the free capacity), spawn at the top edge, then update all active drops
and all splashes. -/
def psStep (cfg : RainConfig) (base_speed tanAngle gravity : ℚ)
    (rndSpawn : Nat → ℚ × ℚ × ℚ × ℚ) (rndSplash : Nat → ℚ × ℚ)
    (dt : ℚ) (sys : ParticleSystem) : ParticleSystem :=
  let nc :=
    if cfg.enabled then spawnBudget (cfg.intensity * MAX_SPAWN_RATE) sys.spawn_carry dt
    else (0, sys.spawn_carry)
  let spawnN := min nc.1 (sys.max_drops - sys.drops.length)
  let allDrops := spawnDrops cfg base_speed tanAngle rndSpawn spawnN ++ sys.drops
  let upd := updateDrops sys.screen_width sys.screen_height cfg.splash_enabled
      dt rndSplash 0 allDrops
  { sys with
      drops := upd.1
      splashes := updateSplashes gravity dt sys.splashes ++ upd.2
      spawn_carry := nc.2 }

/-- One frame of the spawn-budget accumulator alone: feed the carry
through `spawnBudget` and count the drops spawned. -/
def spawnStep (rate : ℚ) (st : ℚ × Nat) (dt : ℚ) : ℚ × Nat :=
  ((spawnBudget rate st.1 dt).2, st.2 + (spawnBudget rate st.1 dt).1)

/-- Carry and total spawn count after a sequence of frames of durations
`dts` at a constant spawn rate, starting from carry 0. -/
def spawnTotals (rate : ℚ) (dts : List ℚ) : ℚ × Nat :=
  dts.foldl (spawnStep rate) (0, 0)

/-- Splash pool after a sequence of frames of durations `dts`. -/
def runSplashes (gravity : ℚ) (dts : List ℚ) (ss : List SplashParticle) :
    List SplashParticle :=
  dts.foldl (fun acc dt => updateSplashes gravity dt acc) ss

/-! ## Preset transition engine (spec §4.2) -/

/-- Modelled from the spec: the preset transition duration is fixed at
0.5 seconds. -/
def TRANSITION_DURATION : ℚ := 1/2

/-- Linear interpolation `a * (1 - t) + b * t`. -/
def lerpQ (a b t : ℚ) : ℚ := a * (1 - t) + b * t

/-- Component-wise interpolation of the color. -/
def lerpColor (a b : ColorF) (t : ℚ) : ColorF :=
  ⟨lerpQ a.cr b.cr t, lerpQ a.cg b.cg t, lerpQ a.cb b.cb t, lerpQ a.ca b.ca t⟩

/-- Modelled from the spec (§4.2): per-field linear interpolation
`start * (1 - t) + end * t` of the numeric fields, component-wise for the
color; the discrete fields switch at `t ≥ 0.5`. -/
def lerpConfig (s e : RainConfig) (t : ℚ) : RainConfig :=
  { enabled := if 1/2 ≤ t then e.enabled else s.enabled
    intensity := lerpQ s.intensity e.intensity t
    speed := lerpQ s.speed e.speed t
    angle := lerpQ s.angle e.angle t
    drop_length := lerpQ s.drop_length e.drop_length t
    drop_width := lerpQ s.drop_width e.drop_width t
    color := lerpColor s.color e.color t
    opacity := lerpQ s.opacity e.opacity t
    splash_enabled := if 1/2 ≤ t then e.splash_enabled else s.splash_enabled
    splash_intensity := lerpQ s.splash_intensity e.splash_intensity t
    preset := if 1/2 ≤ t then e.preset else s.preset }

/-- Modelled from the spec (§4.2): the transition engine's state — the
published config, and, while Transitioning, the captured start config,
the target config and the elapsed time.  `trans = none` is the Idle
state. -/
structure PresetEngine where
  current : RainConfig
  trans : Option (RainConfig × RainConfig × ℚ)
deriving DecidableEq, Repr

/-- Modelled from the spec (§4.2): `apply_preset(target)` captures
`start = current snapshot`, `end = target`, `elapsed = 0` and enters
Transitioning. -/
def apply_preset (eng : PresetEngine) (target : RainConfig) : PresetEngine :=
  { current := eng.current, trans := some (eng.current, target, 0) }

/-- Modelled from the spec (§4.2): one frame while Transitioning —
`elapsed += dt`; `t = clamp(elapsed / duration, 0, 1)`; the published
config is the per-field interpolation; on `t == 1` the transition ends,
the state returns to Idle and the published config becomes exactly the
target.  In Idle a frame changes nothing. -/
def engineStep (eng : PresetEngine) (dt : ℚ) : PresetEngine :=
  match eng.trans with
  | none => eng
  | some (s, e, el) =>
    let el' := el + dt
    let t := clamp 0 1 (el' / TRANSITION_DURATION)
    if 1 ≤ t then { current := e, trans := none }
    else { current := lerpConfig s e t, trans := some (s, e, el') }

/-- The transition engine after a sequence of frames of durations
`dts`. -/
def engineRun (eng : PresetEngine) (dts : List ℚ) : PresetEngine :=
  dts.foldl engineStep eng

/-! ## Sample data used by the witness instances -/

/-- A concrete configuration (the defaults of `part_000` §5.1, angle set
to 30 degrees). -/
def sampleConfig : RainConfig :=
  { enabled := true
    intensity := 1/2
    speed := 1
    angle := 30
    drop_length := 20
    drop_width := 2
    color := ⟨7/10, 4/5, 1, 3/5⟩
    opacity := 1
    splash_enabled := true
    splash_intensity := 1/2
    preset := some "gentle" }

/-- A concrete target configuration (the `storm` preset of `part_000`
§5.2). -/
def sampleTarget : RainConfig :=
  { enabled := true
    intensity := 19/20
    speed := 7/2
    angle := 25
    drop_length := 35
    drop_width := 2
    color := ⟨3/5, 7/10, 9/10, 4/5⟩
    opacity := 1
    splash_enabled := true
    splash_intensity := 9/10
    preset := some "storm" }

/-- A concrete drop just above the bottom edge. -/
def sampleDrop : Raindrop :=
  { pos := ⟨10, 99⟩, velocity := ⟨0, 5⟩, length := 20, width := 2
    opacity := 1, lifetime := 1/2 }

/-- A concrete particle system with one active drop and capacity 3. -/
def sampleSystem : ParticleSystem :=
  { drops := [sampleDrop], splashes := [], max_drops := 3
    screen_width := 100, screen_height := 100, spawn_carry := 0 }

/-- A concrete splash with one second of life. -/
def sampleSplash : SplashParticle :=
  { pos := ⟨1, 100⟩, velocity := ⟨0, 1⟩, life := 1, max_life := 1, size := 1 }

/-! ## Lemmas about clamping -/

theorem clamp01_nonneg (x : ℚ) : 0 ≤ clamp01 x :=
  le_min (by norm_num) (le_max_left 0 x)

theorem clamp01_le_one (x : ℚ) : clamp01 x ≤ 1 :=
  min_le_left 1 _

/-- C2: every externally supplied configuration value is clamped before
being stored: after `apply_config` or any of the per-parameter setters
the stored `intensity`, `opacity` and `splash_intensity` lie in `[0,1]`;
in particular an intensity of 1.5 is stored as 1 and an opacity of -0.2
is stored as 0 (out-of-range inputs are corrected, never stored as given
and never rejected — the setters are total functions). -/
theorem config_clamp_ranges :
    ∀ (c : RainConfig) (v : ℚ),
      (0 ≤ (apply_config c).intensity ∧ (apply_config c).intensity ≤ 1) ∧
      (0 ≤ (apply_config c).opacity ∧ (apply_config c).opacity ≤ 1) ∧
      (0 ≤ (apply_config c).splash_intensity ∧
        (apply_config c).splash_intensity ≤ 1) ∧
      (0 ≤ (set_intensity c v).intensity ∧ (set_intensity c v).intensity ≤ 1) ∧
      (0 ≤ (set_opacity c v).opacity ∧ (set_opacity c v).opacity ≤ 1) ∧
      (0 ≤ (set_splash_intensity c v).splash_intensity ∧
        (set_splash_intensity c v).splash_intensity ≤ 1) ∧
      (set_intensity c (3/2)).intensity = 1 ∧
      (set_opacity c (-(1/5))).opacity = 0 := by
  intro c v
  refine ⟨⟨clamp01_nonneg _, clamp01_le_one _⟩, ⟨clamp01_nonneg _, clamp01_le_one _⟩,
    ⟨clamp01_nonneg _, clamp01_le_one _⟩, ⟨clamp01_nonneg _, clamp01_le_one _⟩,
    ⟨clamp01_nonneg _, clamp01_le_one _⟩, ⟨clamp01_nonneg _, clamp01_le_one _⟩, ?_, ?_⟩
  · show clamp01 (3/2) = 1
    norm_num [clamp01, clamp]
  · show clamp01 (-(1/5)) = 0
    norm_num [clamp01, clamp]

/-- C6: a freshly spawned drop's velocity satisfies
`velocity.x / velocity.y = tan(radians(angle))` for every random draw of
the speed and length factors.  `tanAngle` is the precomputed tangent of
the configured angle (exact over `ℚ`, so no floating tolerance is
needed); positivity of `base_speed`, of the configured speed (documented
range `[0.5, 5]`) and of the `U(0.8, 1.2)` speed factor make the
quotient well defined. -/
theorem spawn_wind_ratio :
    ∀ (cfg : RainConfig) (base_speed tanAngle rx ry uSpeed uLen : ℚ),
      -60 ≤ cfg.angle → cfg.angle ≤ 60 →
      0 < base_speed → 0 < cfg.speed →
      4/5 ≤ uSpeed → uSpeed ≤ 6/5 →
      (spawnDrop cfg base_speed tanAngle (rx, ry, uSpeed, uLen)).velocity.x /
        (spawnDrop cfg base_speed tanAngle (rx, ry, uSpeed, uLen)).velocity.y =
        tanAngle := by
  intro cfg base_speed tanAngle rx ry uSpeed uLen _ _ hb hs hu _
  have hupos : 0 < uSpeed := lt_of_lt_of_le (by norm_num) hu
  have hvy : base_speed * cfg.speed * uSpeed ≠ 0 :=
    ne_of_gt (mul_pos (mul_pos hb hs) hupos)
  simpa [spawnDrop] using mul_div_cancel_left₀ tanAngle hvy

/-- Witness for C6 at the sample configuration. -/
theorem spawn_wind_ratio_witness :
    (-60 ≤ sampleConfig.angle ∧ sampleConfig.angle ≤ 60 ∧ (0:ℚ) < 100 ∧
      0 < sampleConfig.speed ∧ (4/5 : ℚ) ≤ 1 ∧ (1:ℚ) ≤ 6/5) ∧
    (spawnDrop sampleConfig 100 (577/1000) (5, 0, 1, 1)).velocity.x /
      (spawnDrop sampleConfig 100 (577/1000) (5, 0, 1, 1)).velocity.y =
      577/1000 :=
  ⟨⟨by norm_num [sampleConfig], by norm_num [sampleConfig], by norm_num,
      by norm_num [sampleConfig], by norm_num, by norm_num⟩,
    spawn_wind_ratio sampleConfig 100 (577/1000) 5 0 1 1
      (by norm_num [sampleConfig]) (by norm_num [sampleConfig]) (by norm_num)
      (by norm_num [sampleConfig]) (by norm_num) (by norm_num)⟩

/-! ## Digit strings -/

theorem toDigitsCore_eq_jsDigits (b : Nat) (hb : 2 ≤ b) :
    ∀ (fuel n : Nat) (ds : List Char), n < fuel →
      Nat.toDigitsCore b fuel n ds = jsDigits b n ++ ds := by
  intro fuel
  induction fuel with
  | zero => intro n ds h; omega
  | succ f ih =>
    intro n ds h
    by_cases hnb : n < b
    · have hdiv : n / b = 0 := Nat.div_eq_of_lt hnb
      rw [jsDigits]
      simp [Nat.toDigitsCore, hdiv, Nat.mod_eq_of_lt hnb, hnb]
    · have hn0 : 0 < n := by omega
      have hdivpos : 0 < n / b := Nat.div_pos (le_of_not_lt hnb) (by omega)
      have hlt : n / b < f := by
        have := Nat.div_lt_self hn0 (by omega : 1 < b)
        omega
      have step : Nat.toDigitsCore b (f + 1) n ds =
          Nat.toDigitsCore b f (n / b) (Nat.digitChar (n % b) :: ds) := by
        simp [Nat.toDigitsCore]
        omega
      rw [step, ih (n / b) _ hlt]
      have hb1 : ¬ b ≤ 1 := by omega
      conv_rhs => rw [jsDigits]
      simp [hnb, hb1]

theorem toDigits_eq_jsDigits (b n : Nat) (hb : 2 ≤ b) :
    Nat.toDigits b n = jsDigits b n := by
  have := toDigitsCore_eq_jsDigits b hb (n + 1) n [] (Nat.lt_succ_self n)
  simpa [Nat.toDigits] using this

theorem decValue_append_singleton (l : List Char) (c : Char) :
    decValue (l ++ [c]) = 10 * decValue l + (c.toNat - 48) := by
  simp [decValue, List.foldl_append]

theorem digitChar_val : ∀ d : Nat, d < 10 → (Nat.digitChar d).toNat - 48 = d := by
  decide

theorem decValue_jsDigits : ∀ n : Nat, decValue (jsDigits 10 n) = n := by
  intro n
  induction n using Nat.strong_induction_on with
  | _ n ih =>
    by_cases h : n < 10
    · rw [jsDigits]
      simp only [h, true_or, if_pos]
      show decValue [Nat.digitChar n] = n
      have := digitChar_val n h
      simp [decValue]
      omega
    · rw [jsDigits]
      simp only [h, false_or, if_neg, not_false_iff, Nat.not_le_of_lt,
        show ¬(10 ≤ 1) by norm_num, or_false]
      rw [decValue_append_singleton, ih (n / 10) (Nat.div_lt_self (by omega) (by norm_num))]
      have := digitChar_val (n % 10) (Nat.mod_lt n (by norm_num))
      omega

theorem decValue_cons_zero (t : List Char) : decValue ('0' :: t) = decValue t := by
  simp [decValue]

theorem decValue_replicate_zero (k : Nat) (l : List Char) :
    decValue (List.replicate k '0' ++ l) = decValue l := by
  induction k with
  | zero => simp
  | succ k ih =>
    rw [List.replicate_succ, List.cons_append, decValue_cons_zero, ih]

theorem decValue_padStart2 (l : List Char) : decValue (padStart2 l) = decValue l := by
  unfold padStart2
  split
  · exact decValue_replicate_zero _ _
  · rfl

theorem padStart2_length (l : List Char) : 2 ≤ (padStart2 l).length := by
  unfold padStart2
  split
  · rename_i h
    simp only [List.length_append, List.length_replicate]
    omega
  · rename_i h
    omega

/-- C10: `formatTime` renders `floor(totalSecs / 60)` and
`totalSecs mod 60` joined by a colon, each part zero-padded to at least
two digits (padding does not change the decimal value each part reads
as), and the seconds part is always strictly below 60. -/
theorem formatTime_correct :
    ∀ n : Nat, ∃ m s : List Char,
      (formatTime n).data = m ++ ':' :: s ∧
      2 ≤ m.length ∧ 2 ≤ s.length ∧
      decValue m = n / 60 ∧ decValue s = n % 60 ∧ n % 60 < 60 := by
  intro n
  refine ⟨padStart2 (natDecimal (n / 60)), padStart2 (natDecimal (n % 60)), rfl,
    padStart2_length _, padStart2_length _, ?_, ?_, Nat.mod_lt n (by norm_num)⟩
  · rw [decValue_padStart2]
    unfold natDecimal
    rw [toDigits_eq_jsDigits 10 _ (by norm_num)]
    exact decValue_jsDigits _
  · rw [decValue_padStart2]
    unfold natDecimal
    rw [toDigits_eq_jsDigits 10 _ (by norm_num)]
    exact decValue_jsDigits _

/-! ## Hex colors -/

theorem hexVal_le (c : Char) (h : Nat) : hexVal c = some h → h ≤ 15 := by
  unfold hexVal
  split_ifs with h1 h2 h3 <;> intro hh <;> simp_all <;> omega

theorem parseHexPair_le (a b : Char) (v : Nat) :
    parseHexPair a b = some v → v ≤ 255 := by
  unfold parseHexPair
  rcases ha : hexVal a with _ | x <;> rcases hb : hexVal b with _ | y <;>
    intro hv <;> simp_all
  have hx := hexVal_le a x ha
  have hy := hexVal_le b y hb
  omega

theorem parseHexPair_isHexDigit (a b : Char) (v : Nat)
    (h : parseHexPair a b = some v) : isHexDigit a ∧ isHexDigit b := by
  unfold parseHexPair at h
  rcases ha : hexVal a with _ | x <;> rcases hb : hexVal b with _ | y <;>
    simp_all [isHexDigit]

theorem hexVal_digitChar : ∀ d : Nat, d < 16 → hexVal (Nat.digitChar d) = some d := by
  decide

theorem hex_byte_decomp (n : Nat) (h : n ≤ 255) :
    ∃ a b : Char, padStart2 (Nat.toDigits 16 n) = [a, b] ∧
      parseHexPair a b = some n := by
  rw [toDigits_eq_jsDigits 16 n (by norm_num)]
  by_cases h16 : n < 16
  · have e : jsDigits 16 n = [Nat.digitChar n] := by
      rw [jsDigits]
      simp [h16]
    refine ⟨'0', Nat.digitChar n, ?_, ?_⟩
    · rw [e]
      simp [padStart2, List.replicate]
    · unfold parseHexPair
      rw [hexVal_digitChar n h16, show hexVal '0' = some 0 from by decide]
      simp
  · have hdiv : n / 16 < 16 := by omega
    have e : jsDigits 16 n = [Nat.digitChar (n / 16), Nat.digitChar (n % 16)] := by
      rw [jsDigits]
      have e2 : jsDigits 16 (n / 16) = [Nat.digitChar (n / 16)] := by
        rw [jsDigits]
        simp [hdiv]
      simp [h16, e2]
    refine ⟨Nat.digitChar (n / 16), Nat.digitChar (n % 16), ?_, ?_⟩
    · rw [e]
      simp [padStart2]
    · unfold parseHexPair
      rw [hexVal_digitChar _ hdiv, hexVal_digitChar _ (Nat.mod_lt _ (by norm_num))]
      show some (16 * (n / 16) + n % 16) = some n
      rw [Nat.div_add_mod]

/-- C8: encoding a color whose channels are integers in `[0,255]` with
`colorToHex` and decoding with `hexToColor` returns exactly the same
channels, with the supplied alpha stored unchanged. -/
theorem hex_color_roundtrip :
    ∀ (c : RainColor) (a : ℚ), c.r ≤ 255 → c.g ≤ 255 → c.b ≤ 255 →
      hexToColor (colorToHex c) a = ⟨c.r, c.g, c.b, a⟩ := by
  intro c a hr hg hb
  obtain ⟨a1, b1, e1, p1⟩ := hex_byte_decomp c.r hr
  obtain ⟨a2, b2, e2, p2⟩ := hex_byte_decomp c.g hg
  obtain ⟨a3, b3, e3, p3⟩ := hex_byte_decomp c.b hb
  have hb6 : hexBody (colorToHex c) = [a1, b1, a2, b2, a3, b3] := by
    show padStart2 (Nat.toDigits 16 c.r) ++ padStart2 (Nat.toDigits 16 c.g) ++
      padStart2 (Nat.toDigits 16 c.b) = _
    rw [e1, e2, e3]
    rfl
  unfold hexToColor
  rw [hb6]
  show (match parseHexPair a1 b1, parseHexPair a2 b2, parseHexPair a3 b3 with
    | some r, some g, some b => RainColor.mk r g b a
    | _, _, _ => ⟨174, 194, 224, a⟩) = RainColor.mk c.r c.g c.b a
  rw [p1, p2, p3]

/-- Witness for C8: the default rain color round-trips. -/
theorem hex_color_roundtrip_witness :
    ((174 : Nat) ≤ 255 ∧ (194 : Nat) ≤ 255 ∧ (224 : Nat) ≤ 255) ∧
    hexToColor (colorToHex ⟨174, 194, 224, 180⟩) 99 = ⟨174, 194, 224, 99⟩ :=
  ⟨⟨by norm_num, by norm_num, by norm_num⟩,
    hex_color_roundtrip ⟨174, 194, 224, 180⟩ 99 (by norm_num) (by norm_num)
      (by norm_num)⟩

theorem hexBody_cases (s : String) :
    s.data = hexBody s ∨ s.data = '#' :: hexBody s := by
  unfold hexBody
  split
  · rename_i rest hrest
    right
    exact hrest
  · left
    rfl

/-- C9: `hexToColor` never fails: for every input string and alpha the
result has integer channels in `[0,255]` and stores the alpha unchanged,
and any input that is not six hex digits (optionally prefixed with `#`)
yields the fallback color `r=174, g=194, b=224`. -/
theorem hexToColor_safe :
    ∀ (s : String) (a : ℚ),
      ((hexToColor s a).r ≤ 255 ∧ (hexToColor s a).g ≤ 255 ∧
        (hexToColor s a).b ≤ 255 ∧ (hexToColor s a).a = a) ∧
      (¬ validHexString s → hexToColor s a = ⟨174, 194, 224, a⟩) := by
  intro s a
  constructor
  · unfold hexToColor
    split
    · split
      · rename_i r g b hp1 hp2 hp3
        exact ⟨parseHexPair_le _ _ _ hp1, parseHexPair_le _ _ _ hp2,
          parseHexPair_le _ _ _ hp3, rfl⟩
      · exact ⟨by norm_num, by norm_num, by norm_num, rfl⟩
    · exact ⟨by norm_num, by norm_num, by norm_num, rfl⟩
  · intro hinv
    unfold hexToColor
    split
    · rename_i c1 c2 c3 c4 c5 c6 hbody
      split
      · rename_i r g b hp1 hp2 hp3
        exfalso
        apply hinv
        refine ⟨[c1, c2, c3, c4, c5, c6], ?_, rfl, ?_⟩
        · have hc := hexBody_cases s
          rw [hbody] at hc
          exact hc
        · obtain ⟨h1, h2⟩ := parseHexPair_isHexDigit _ _ _ hp1
          obtain ⟨h3, h4⟩ := parseHexPair_isHexDigit _ _ _ hp2
          obtain ⟨h5, h6⟩ := parseHexPair_isHexDigit _ _ _ hp3
          intro x hx
          simp only [List.mem_cons, List.not_mem_nil, or_false] at hx
          rcases hx with rfl | rfl | rfl | rfl | rfl | rfl <;> assumption
      · rfl
    · rfl

/-- Witness for C9 at the invalid input `"12345"`. -/
theorem hexToColor_safe_witness :
    ¬ validHexString "12345" ∧ hexToColor "12345" 7 = ⟨174, 194, 224, 7⟩ := by
  have hnv : ¬ validHexString "12345" := by
    rintro ⟨t, ht | ht, hlen, -⟩
    · rw [show "12345".data = ['1', '2', '3', '4', '5'] from rfl] at ht
      rw [← ht] at hlen
      simp at hlen
    · rw [show "12345".data = ['1', '2', '3', '4', '5'] from rfl] at ht
      simp at ht
  exact ⟨hnv, (hexToColor_safe "12345" 7).2 hnv⟩

/-! ## Drop update characterization -/

theorem updateDrops_fst (w h : ℚ) (so : Bool) (dt : ℚ) (rnd : Nat → ℚ × ℚ) :
    ∀ (ds : List Raindrop) (i : Nat),
      (updateDrops w h so dt rnd i ds).1 =
        (ds.map (integrateDrop dt)).filter
          (fun d => !(hitsBottom h d) && !(exitsSide w d)) := by
  intro ds
  induction ds with
  | nil => intro i; rfl
  | cons d rest ih =>
    intro i
    cases hbot : hitsBottom h (integrateDrop dt d)
    · cases hside : exitsSide w (integrateDrop dt d)
      · simp [updateDrops, hbot, hside, ih (i + 1)]
      · simp [updateDrops, hbot, hside, ih (i + 1)]
    · simp [updateDrops, hbot, ih (i + 1)]

theorem updateDrops_snd_off (w h : ℚ) (dt : ℚ) (rnd : Nat → ℚ × ℚ) :
    ∀ (ds : List Raindrop) (i : Nat),
      (updateDrops w h false dt rnd i ds).2 = [] := by
  intro ds
  induction ds with
  | nil => intro i; rfl
  | cons d rest ih =>
    intro i
    cases hbot : hitsBottom h (integrateDrop dt d)
    · cases hside : exitsSide w (integrateDrop dt d)
      · simp [updateDrops, hbot, hside, ih (i + 1)]
      · simp [updateDrops, hbot, hside, ih (i + 1)]
    · simp [updateDrops, hbot, ih (i + 1)]

theorem updateDrops_snd_on (w h : ℚ) (dt : ℚ) (rnd : Nat → ℚ × ℚ) :
    ∀ (ds : List Raindrop) (i : Nat),
      (updateDrops w h true dt rnd i ds).2.map (fun sp => sp.pos.x) =
        ((ds.map (integrateDrop dt)).filter (fun d => hitsBottom h d)).map
          (fun d => d.pos.x) := by
  intro ds
  induction ds with
  | nil => intro i; rfl
  | cons d rest ih =>
    intro i
    cases hbot : hitsBottom h (integrateDrop dt d)
    · cases hside : exitsSide w (integrateDrop dt d)
      · simp [updateDrops, hbot, hside, ih (i + 1)]
      · simp [updateDrops, hbot, hside, ih (i + 1)]
    · simp [updateDrops, hbot, ih (i + 1), mkSplash]

/-- C3: in one drop-update pass, the surviving drops are exactly the
integrated drops that neither crossed the bottom edge nor exited a side
(each bottom-crossing drop is removed exactly once, and removal does not
depend on `splash_enabled`); with splashes enabled, exactly one splash is
created per bottom-crossing drop, at the crossing x-coordinate, and with
splashes disabled none is created. -/
theorem drop_recycle_splash :
    ∀ (w h : ℚ) (so : Bool) (dt : ℚ) (rnd : Nat → ℚ × ℚ) (ds : List Raindrop),
      (updateDrops w h so dt rnd 0 ds).1 =
        (ds.map (integrateDrop dt)).filter
          (fun d => !(hitsBottom h d) && !(exitsSide w d)) ∧
      (updateDrops w h so dt rnd 0 ds).2.length =
        (if so then
          ((ds.map (integrateDrop dt)).filter (fun d => hitsBottom h d)).length
        else 0) ∧
      (updateDrops w h so dt rnd 0 ds).2.map (fun sp => sp.pos.x) =
        (if so then
          ((ds.map (integrateDrop dt)).filter (fun d => hitsBottom h d)).map
            (fun d => d.pos.x)
        else []) := by
  intro w h so dt rnd ds
  refine ⟨updateDrops_fst w h so dt rnd ds 0, ?_, ?_⟩
  · cases so
    · simp [updateDrops_snd_off w h dt rnd ds 0]
    · have := congrArg List.length (updateDrops_snd_on w h dt rnd ds 0)
      simpa using this
  · cases so
    · simp [updateDrops_snd_off w h dt rnd ds 0]
    · simpa using updateDrops_snd_on w h dt rnd ds 0

theorem spawnDrops_length (cfg : RainConfig) (base_speed tanAngle : ℚ)
    (rnd : Nat → ℚ × ℚ × ℚ × ℚ) :
    ∀ k : Nat, (spawnDrops cfg base_speed tanAngle rnd k).length = k := by
  intro k
  induction k with
  | zero => rfl
  | succ k ih => simp [spawnDrops, ih]

/-- C1: one simulation step preserves the capacity invariant: for any
`dt ≥ 0`, if `active_drops ≤ max_drops` holds before the step it holds
after it, and the capacity `max_drops` itself never changes (spawning
beyond capacity is a no-op: the spawn count is capped by the free
capacity). -/
theorem active_drops_bounded :
    ∀ (cfg : RainConfig) (base_speed tanAngle gravity : ℚ)
      (rndSpawn : Nat → ℚ × ℚ × ℚ × ℚ) (rndSplash : Nat → ℚ × ℚ)
      (dt : ℚ) (sys : ParticleSystem),
      sys.active_drops ≤ sys.max_drops → 0 ≤ dt →
      (psStep cfg base_speed tanAngle gravity rndSpawn rndSplash dt
        sys).active_drops ≤ sys.max_drops ∧
      (psStep cfg base_speed tanAngle gravity rndSpawn rndSplash dt
        sys).max_drops = sys.max_drops := by
  intro cfg base_speed tanAngle gravity rndSpawn rndSplash dt sys hcap _hdt
  unfold ParticleSystem.active_drops at *
  constructor
  · show (updateDrops sys.screen_width sys.screen_height cfg.splash_enabled dt
      rndSplash 0 _).1.length ≤ sys.max_drops
    rw [updateDrops_fst]
    apply le_trans (List.length_filter_le _ _)
    rw [List.length_map, List.length_append, spawnDrops_length]
    omega
  · rfl

/-- Witness for C1: a step of the sample system at 60 fps. -/
theorem active_drops_bounded_witness :
    (sampleSystem.active_drops ≤ sampleSystem.max_drops ∧ (0:ℚ) ≤ 1/60) ∧
    (psStep sampleConfig 300 0 900 (fun _ => (50, 0, 1, 1)) (fun _ => (0, -2))
      (1/60) sampleSystem).active_drops ≤ sampleSystem.max_drops ∧
    (psStep sampleConfig 300 0 900 (fun _ => (50, 0, 1, 1)) (fun _ => (0, -2))
      (1/60) sampleSystem).max_drops = sampleSystem.max_drops :=
  ⟨⟨by decide, by norm_num⟩,
    active_drops_bounded sampleConfig 300 0 900 (fun _ => (50, 0, 1, 1))
      (fun _ => (0, -2)) (1/60) sampleSystem (by decide) (by norm_num)⟩

/-! ## Spawn budget accumulation -/

theorem spawnTotals_fold (rate : ℚ) (hr : 0 ≤ rate) :
    ∀ (dts : List ℚ), (∀ d ∈ dts, 0 ≤ d) →
      ∀ (c : ℚ) (k : Nat), 0 ≤ c → c < 1 →
        (((dts.foldl (spawnStep rate) (c, k)).2 : ℚ) +
            (dts.foldl (spawnStep rate) (c, k)).1 =
          (k : ℚ) + c + rate * dts.sum) ∧
        0 ≤ (dts.foldl (spawnStep rate) (c, k)).1 ∧
        (dts.foldl (spawnStep rate) (c, k)).1 < 1 := by
  intro dts
  induction dts with
  | nil =>
    intro _ c k hc0 hc1
    refine ⟨?_, hc0, hc1⟩
    simp
  | cons d rest ih =>
    intro hd c k hc0 hc1
    have hd0 : 0 ≤ d := hd d (List.mem_cons_self d rest)
    have hb0 : 0 ≤ rate * d + c := add_nonneg (mul_nonneg hr hd0) hc0
    have hfl : ((⌊rate * d + c⌋₊ : ℚ)) ≤ rate * d + c := Nat.floor_le hb0
    have hfl2 : rate * d + c < (⌊rate * d + c⌋₊ : ℚ) + 1 :=
      Nat.lt_floor_add_one _
    have hstep : spawnStep rate (c, k) d =
        (rate * d + c - (⌊rate * d + c⌋₊ : ℚ), k + ⌊rate * d + c⌋₊) := by
      simp [spawnStep, spawnBudget]
    rw [List.foldl_cons, hstep]
    obtain ⟨ih1, ih2, ih3⟩ :=
      ih (fun x hx => hd x (List.mem_cons_of_mem d hx))
        (rate * d + c - (⌊rate * d + c⌋₊ : ℚ)) (k + ⌊rate * d + c⌋₊)
        (by linarith) (by linarith)
    refine ⟨?_, ih2, ih3⟩
    rw [ih1, List.sum_cons]
    push_cast
    ring

/-- C4: at constant intensity the spawn-budget accumulator has no drift:
after frames of durations `dts` summing to `T`, the total number of
drops spawned is exactly `⌊intensity * MAX_SPAWN_RATE * T⌋` — the
fractional remainder of each frame's budget is carried to the next
frame, so the total stays within 1 drop of `intensity * MAX_SPAWN_RATE *
T` regardless of how `T` is cut into frames. -/
theorem spawn_total_accurate :
    ∀ (i : ℚ) (dts : List ℚ), 0 ≤ i → (∀ d ∈ dts, 0 ≤ d) →
      (spawnTotals (i * MAX_SPAWN_RATE) dts).2 =
        ⌊i * MAX_SPAWN_RATE * dts.sum⌋₊ ∧
      i * MAX_SPAWN_RATE * dts.sum - 1 <
        ((spawnTotals (i * MAX_SPAWN_RATE) dts).2 : ℚ) ∧
      ((spawnTotals (i * MAX_SPAWN_RATE) dts).2 : ℚ) ≤
        i * MAX_SPAWN_RATE * dts.sum := by
  intro i dts hi hd
  have hr : 0 ≤ i * MAX_SPAWN_RATE :=
    mul_nonneg hi (by norm_num [MAX_SPAWN_RATE])
  obtain ⟨h1, h2, h3⟩ :=
    spawnTotals_fold (i * MAX_SPAWN_RATE) hr dts hd 0 0 le_rfl (by norm_num)
  unfold spawnTotals
  rw [Nat.cast_zero, add_zero, zero_add] at h1
  refine ⟨?_, by linarith, by linarith⟩
  have hx0 : 0 ≤ i * MAX_SPAWN_RATE * dts.sum := by
    have : (0:ℚ) ≤ ((dts.foldl (spawnStep (i * MAX_SPAWN_RATE)) (0, 0)).2 : ℚ) :=
      Nat.cast_nonneg _
    linarith
  symm
  rw [Nat.floor_eq_iff hx0]
  constructor
  · linarith
  · linarith

/-- Witness for C4: twenty-four frames of 1/60 s at intensity 1/2. -/
theorem spawn_total_accurate_witness :
    ((0:ℚ) ≤ 1/2) ∧
    (spawnTotals ((1/2) * MAX_SPAWN_RATE) (List.replicate 24 (1/60))).2 =
      ⌊(1/2) * MAX_SPAWN_RATE * (List.replicate 24 ((1:ℚ)/60)).sum⌋₊ ∧
    (1/2) * MAX_SPAWN_RATE * (List.replicate 24 ((1:ℚ)/60)).sum - 1 <
      (((spawnTotals ((1/2) * MAX_SPAWN_RATE) (List.replicate 24 (1/60))).2 : ℚ)) ∧
    (((spawnTotals ((1/2) * MAX_SPAWN_RATE) (List.replicate 24 (1/60))).2 : ℚ)) ≤
      (1/2) * MAX_SPAWN_RATE * (List.replicate 24 ((1:ℚ)/60)).sum :=
  ⟨by norm_num,
    spawn_total_accurate (1/2) (List.replicate 24 (1/60)) (by norm_num)
      (by
        intro d hd
        rw [List.eq_of_mem_replicate hd]
        norm_num)⟩

/-! ## Splash lifecycle -/

theorem runSplashes_nil (g : ℚ) : ∀ dts : List ℚ, runSplashes g dts [] = [] := by
  intro dts
  induction dts with
  | nil => rfl
  | cons d rest ih =>
    show runSplashes g rest (updateSplashes g d []) = []
    simpa [updateSplashes] using ih

theorem runSplashes_single (g : ℚ) :
    ∀ (dts : List ℚ) (s : SplashParticle), 0 < s.life → (∀ d ∈ dts, 0 ≤ d) →
      (s.life ≤ dts.sum → runSplashes g dts [s] = []) ∧
      (dts.sum < s.life → ∃ s', runSplashes g dts [s] = [s'] ∧
        s'.life = s.life - dts.sum) := by
  intro dts
  induction dts with
  | nil =>
    intro s hs _
    constructor
    · intro hle
      rw [List.sum_nil] at hle
      linarith
    · intro _
      exact ⟨s, rfl, by simp⟩
  | cons d rest ih =>
    intro s hs hd
    have hd0 : 0 ≤ d := hd d (List.mem_cons_self d rest)
    have hdrest : ∀ x ∈ rest, 0 ≤ x := fun x hx => hd x (List.mem_cons_of_mem d hx)
    have hsum_rest : 0 ≤ rest.sum := List.sum_nonneg hdrest
    have hstep : runSplashes g (d :: rest) [s] =
        runSplashes g rest (updateSplashes g d [s]) := rfl
    by_cases hlife : 0 < s.life - d
    · have hlife' : 0 < (updateSplash g d s).life := by
        simpa [updateSplash] using hlife
      have hupd : updateSplashes g d [s] = [updateSplash g d s] := by
        simp [updateSplashes, hlife']
      obtain ⟨ih1, ih2⟩ := ih (updateSplash g d s) hlife' hdrest
      constructor
      · intro hle
        rw [hstep, hupd]
        apply ih1
        rw [List.sum_cons] at hle
        simp only [updateSplash]
        linarith
      · intro hlt
        rw [List.sum_cons] at hlt
        obtain ⟨s', he, hl⟩ := ih2 (by simp only [updateSplash]; linarith)
        refine ⟨s', by rw [hstep, hupd]; exact he, ?_⟩
        rw [hl]
        simp only [updateSplash, List.sum_cons]
        ring
    · have hdead : ¬ 0 < (updateSplash g d s).life := by
        simpa [updateSplash] using hlife
      have hupd : updateSplashes g d [s] = [] := by
        simp [updateSplashes, hdead]
      have hres : runSplashes g (d :: rest) [s] = [] := by
        rw [hstep, hupd]
        exact runSplashes_nil g rest
      constructor
      · intro _
        exact hres
      · intro hlt
        exfalso
        rw [List.sum_cons] at hlt
        have : s.life ≤ d := by linarith [not_lt.mp hlife]
        linarith

/-- C7: a splash created with `remaining_life = L > 0` stays in the
active set at exactly the update steps whose accumulated simulated time
is still below `L` (it is never removed before its life runs out), and
is gone from the active set at the first step whose accumulated time
reaches `L` (it is destroyed in the first step where `remaining_life ≤
0`, its life having decreased by exactly the accumulated time). -/
theorem splash_lifecycle :
    ∀ (gravity L : ℚ) (dts : List ℚ) (s : SplashParticle),
      s.life = L → 0 < L → (∀ d ∈ dts, 0 ≤ d) →
      (L ≤ dts.sum → runSplashes gravity dts [s] = []) ∧
      (dts.sum < L → ∃ s', runSplashes gravity dts [s] = [s'] ∧
        s'.life = L - dts.sum) := by
  intro g L dts s hsl hL hd
  subst hsl
  exact runSplashes_single g dts s hL hd

/-- Witness for C7: the sample splash (life 1) survives three 0.3 s
steps with life 1/10 remaining. -/
theorem splash_lifecycle_witness :
    ∃ s', runSplashes 900 [(3:ℚ)/10, 3/10, 3/10] [sampleSplash] = [s'] ∧
      s'.life = 1 - [(3:ℚ)/10, 3/10, 3/10].sum :=
  (splash_lifecycle 900 1 [(3:ℚ)/10, 3/10, 3/10] sampleSplash rfl (by norm_num)
    (by
      intro d hd
      fin_cases hd <;> norm_num)).2
    (by norm_num)

/-! ## Preset transition -/

theorem engineRun_cons (eng : PresetEngine) (d : ℚ) (rest : List ℚ) :
    engineRun eng (d :: rest) = engineRun (engineStep eng d) rest := rfl

theorem engineRun_idle (c : RainConfig) :
    ∀ dts : List ℚ, engineRun ⟨c, none⟩ dts = ⟨c, none⟩ := by
  intro dts
  induction dts with
  | nil => rfl
  | cons d rest ih =>
    rw [engineRun_cons]
    exact ih

theorem engineRun_trans (s e : RainConfig) :
    ∀ (dts : List ℚ), (∀ d ∈ dts, 0 ≤ d) →
      ∀ (el : ℚ) (cur : RainConfig), 0 ≤ el → el < TRANSITION_DURATION →
        (TRANSITION_DURATION ≤ el + dts.sum →
          engineRun ⟨cur, some (s, e, el)⟩ dts = ⟨e, none⟩) ∧
        (el + dts.sum < TRANSITION_DURATION → dts ≠ [] →
          engineRun ⟨cur, some (s, e, el)⟩ dts =
            ⟨lerpConfig s e ((el + dts.sum) / TRANSITION_DURATION),
              some (s, e, el + dts.sum)⟩) := by
  intro dts
  induction dts with
  | nil =>
    intro _ el cur _ heldur
    constructor
    · intro habs
      rw [List.sum_nil, add_zero] at habs
      linarith
    · intro _ habs
      exact absurd rfl habs
  | cons d rest ih =>
    intro hd el cur hel0 heldur
    have hd0 : 0 ≤ d := hd d (List.mem_cons_self d rest)
    have hdrest : ∀ x ∈ rest, 0 ≤ x := fun x hx => hd x (List.mem_cons_of_mem d hx)
    have hsum_rest : 0 ≤ rest.sum := List.sum_nonneg hdrest
    by_cases hcross : TRANSITION_DURATION ≤ el + d
    · have hx1 : (1:ℚ) ≤ (el + d) / TRANSITION_DURATION := by
        rw [le_div_iff₀ (by norm_num [TRANSITION_DURATION])]
        linarith
      have ht : (1:ℚ) ≤ clamp 0 1 ((el + d) / TRANSITION_DURATION) := by
        unfold clamp
        rw [max_eq_right (by linarith), min_eq_left hx1]
      have hstep : engineStep ⟨cur, some (s, e, el)⟩ d = ⟨e, none⟩ := by
        simp only [engineStep]
        rw [if_pos ht]
      constructor
      · intro _
        rw [engineRun_cons, hstep]
        exact engineRun_idle e rest
      · intro hlt _
        exfalso
        rw [List.sum_cons] at hlt
        linarith
    · push_neg at hcross
      have hel'0 : 0 ≤ el + d := by linarith
      have hx0 : 0 ≤ (el + d) / TRANSITION_DURATION := by
        apply div_nonneg hel'0
        norm_num [TRANSITION_DURATION]
      have hx1 : (el + d) / TRANSITION_DURATION < 1 := by
        rw [div_lt_iff₀ (by norm_num [TRANSITION_DURATION])]
        linarith
      have ht : clamp 0 1 ((el + d) / TRANSITION_DURATION) =
          (el + d) / TRANSITION_DURATION := by
        unfold clamp
        rw [max_eq_right hx0, min_eq_right (le_of_lt hx1)]
      have hnot : ¬ (1:ℚ) ≤ clamp 0 1 ((el + d) / TRANSITION_DURATION) := by
        rw [ht]
        linarith
      have hstep : engineStep ⟨cur, some (s, e, el)⟩ d =
          ⟨lerpConfig s e ((el + d) / TRANSITION_DURATION), some (s, e, el + d)⟩ := by
        simp only [engineStep]
        rw [if_neg hnot, ht]
      obtain ⟨ihA, ihB⟩ := ih hdrest (el + d)
        (lerpConfig s e ((el + d) / TRANSITION_DURATION)) hel'0 hcross
      constructor
      · intro hge
        rw [engineRun_cons, hstep]
        apply ihA
        rw [List.sum_cons] at hge
        linarith
      · intro hlt _
        rw [List.sum_cons] at hlt
        rw [engineRun_cons, hstep]
        by_cases hrest : rest = []
        · subst hrest
          show (⟨lerpConfig s e ((el + d) / TRANSITION_DURATION),
            some (s, e, el + d)⟩ : PresetEngine) = _
          rw [List.sum_cons, List.sum_nil, add_zero]
        · rw [ihB (by linarith) hrest]
          rw [List.sum_cons, ← add_assoc]

/-- C5: applying a preset starts a 0.5 s transition; after frames of
nonnegative durations summing to an elapsed time of 0.25 s the published
config is the exact per-field linear interpolation
`start * (1 - t) + end * t` of every numeric field at the interpolation
parameter `t = elapsed / duration = 0.5` (shown both via `lerpConfig`
and spelled out on the `intensity` field), and once the elapsed time
reaches 0.5 s the engine is exactly the target config in the Idle
state. -/
theorem preset_transition_correct :
    ∀ (start target : RainConfig) (dts₁ dts₂ : List ℚ),
      (∀ d ∈ dts₁, 0 ≤ d) → dts₁ ≠ [] → dts₁.sum = 1/4 →
      (∀ d ∈ dts₂, 0 ≤ d) → 1/2 ≤ dts₂.sum →
      (engineRun (apply_preset ⟨start, none⟩ target) dts₁).current =
        lerpConfig start target (1/2) ∧
      (engineRun (apply_preset ⟨start, none⟩ target) dts₁).current.intensity =
        start.intensity * (1 - 1/2) + target.intensity * (1/2) ∧
      engineRun (apply_preset ⟨start, none⟩ target) dts₂ = ⟨target, none⟩ := by
  intro start target dts1 dts2 h1 hne hsum1 h2 hsum2
  have hdur : (0:ℚ) < TRANSITION_DURATION := by norm_num [TRANSITION_DURATION]
  have happ : apply_preset ⟨start, none⟩ target =
      ⟨start, some (start, target, 0)⟩ := rfl
  obtain ⟨-, hB⟩ := engineRun_trans start target dts1 h1 0 start le_rfl hdur
  obtain ⟨hA2, -⟩ := engineRun_trans start target dts2 h2 0 start le_rfl hdur
  have hmid : engineRun ⟨start, some (start, target, 0)⟩ dts1 =
      ⟨lerpConfig start target ((0 + dts1.sum) / TRANSITION_DURATION),
        some (start, target, 0 + dts1.sum)⟩ := by
    apply hB _ hne
    rw [hsum1]
    norm_num [TRANSITION_DURATION]
  have hfac : (0 + dts1.sum) / TRANSITION_DURATION = 1/2 := by
    rw [hsum1, TRANSITION_DURATION]
    norm_num
  refine ⟨?_, ?_, ?_⟩
  · rw [happ, hmid, hfac]
  · rw [happ, hmid, hfac]
    show lerpQ start.intensity target.intensity (1/2) = _
    unfold lerpQ
    ring
  · rw [happ]
    apply hA2
    rw [zero_add]
    exact hsum2

/-- Witness for C5: transitioning from the sample config to the storm
preset, observed at 0.25 s and past 0.5 s. -/
theorem preset_transition_witness :
    (engineRun (apply_preset ⟨sampleConfig, none⟩ sampleTarget)
        [(1:ℚ)/4]).current = lerpConfig sampleConfig sampleTarget (1/2) ∧
    (engineRun (apply_preset ⟨sampleConfig, none⟩ sampleTarget)
        [(1:ℚ)/4]).current.intensity =
      sampleConfig.intensity * (1 - 1/2) + sampleTarget.intensity * (1/2) ∧
    engineRun (apply_preset ⟨sampleConfig, none⟩ sampleTarget)
        [(1:ℚ)/2, 1/10] = ⟨sampleTarget, none⟩ :=
  preset_transition_correct sampleConfig sampleTarget [(1:ℚ)/4] [(1:ℚ)/2, 1/10]
    (by
      intro d hd
      fin_cases hd
      norm_num)
    (by simp)
    (by norm_num)
    (by
      intro d hd
      fin_cases hd <;> norm_num)
    (by norm_num)
